import Mathlib

/-!
Verification of the ruta client-side router core (`packages/ruta-core/internal.ts`).

The development shallowly embeds the router:

* pure string helpers (`resolvePath`, `trimBase`, `normalizeBase`, the string
  branch of `Ruta.href`) are transcribed on `List Char` and wrapped into
  `String`;
* the route trie (`Node`, `Ruta.#insert`, `Ruta.#lookup`, `Ruta.#lookupDynamic`,
  `Ruta.#queueComps`) becomes a purely functional trie;
* the navigation state machine (`Ruta.#matchRoute`, `Ruta.#runHooks`,
  `Ruta.#resolveComps`, `Ruta.#handleNavigate`, `Ruta.navigate`) becomes an
  explicit state-passing function over a `RouterState` record.  Hooks and load
  functions are modelled as pure functions returning an `Outcome`
  (ok / thrown error / redirect), matching the three ways a hook can settle;
  the single-threaded scheduling of the engine (synchronous hooks settle in
  index order under `Promise.all`) is modelled by taking the first non-ok
  outcome in list order.

`assert` failures in the source throw an `Error`; they are modelled as a
distinct `fault` result channel, separate from returning `null` (no match) and
from captured navigation errors.
-/

namespace Ruta

/-! ## Path utilities (`resolvePath`, `trimBase`, `normalizeBase`, `Ruta.href`) -/

/-- JS `Array.prototype.join('/')` on the fragment list, at the character level:
`[].join` is empty, a single fragment is itself, and fragments are separated by
a single `/`. -/
def joinSlash : List (List Char) → List Char
  | [] => []
  | [p] => p
  | p :: ps => p ++ '/' :: joinSlash ps

/-- Worker for the regex replace of `MULTI_SLASH_RE` (two or more slashes)
by a single `/`: `prev` records whether the previously emitted character was
`/`; a slash seen while `prev` holds is dropped, so every maximal run of
slashes is emitted as a single `/`. -/
def collapseAux : Bool → List Char → List Char
  | _, [] => []
  | prev, c :: cs =>
    if c = '/' then
      if prev then collapseAux true cs else '/' :: collapseAux true cs
    else c :: collapseAux false cs

/-- `MULTI_SLASH_RE` replacement: collapse every run of two or more slashes to
one slash (a run of one is left alone, which coincides with emitting one slash
per maximal run). -/
def collapseSlashes (l : List Char) : List Char := collapseAux false l

/-- Last character of a character list, `none` on the empty list. -/
def lastChar : List Char → Option Char
  | [] => none
  | [c] => some c
  | _ :: c :: cs => lastChar (c :: cs)

/-- The conditional `if (joined.length > 1 && joined.endsWith('/')) joined =
joined.slice(0, -1)` of `resolvePath`. -/
def stripTrailingSlash (l : List Char) : List Char :=
  if 1 < l.length ∧ lastChar l = some '/' then l.dropLast else l

/-- `resolvePath` on character lists: prefix a `/`, join the fragments with
`/`, collapse repeated slashes, and drop a single trailing slash unless the
result is the root. -/
def resolvePathChars (paths : List (List Char)) : List Char :=
  stripTrailingSlash (collapseSlashes ('/' :: joinSlash paths))

/-- `resolvePath(...paths)` from `internal.ts`:
`('/' + paths.join('/')).replace(MULTI_SLASH_RE, '/')` followed by removal of a
single trailing slash when the result is longer than `/`. -/
def resolvePath (paths : List String) : String :=
  String.mk (resolvePathChars (paths.map String.data))

/-- The regex replace `path.replace(HTTP_RE, '')` with
`HTTP_RE = ^https?://[^/]*`: when the string starts with an `http://` or
`https://` scheme, everything up to (but excluding) the first slash after the
scheme is removed. -/
def stripHttp (l : List Char) : List Char :=
  if List.isPrefixOf "http://".data l then (l.drop 7).dropWhile (fun c => ¬ c = '/')
  else if List.isPrefixOf "https://".data l then (l.drop 8).dropWhile (fun c => ¬ c = '/')
  else l

/-- `trimBase(path, base)` from `internal.ts`: strip an `http(s)://host`
prefix, strip `base` when it is a literal prefix, then re-normalize with
`resolvePath`. -/
def trimBase (path base : String) : String :=
  let p := stripHttp path.data
  let p := if List.isPrefixOf base.data p then p.drop base.data.length else p
  resolvePath [String.mk p]

/-- `normalizeBase(base)` in the non-browser environment: `base.trim()`
(whitespace removed from both ends). -/
def normalizeBase (base : String) : String :=
  String.mk (((base.data.dropWhile Char.isWhitespace).reverse.dropWhile Char.isWhitespace).reverse)

/-- The string branch of `Ruta.href`:
`resolvePath(base, trimBase(to, base))`.  (The object branch substitutes
params into the path template and appends a query string; the claims under
study only exercise string targets.) -/
def href (base target : String) : String :=
  resolvePath [base, trimBase target base]

/-- No two adjacent characters are both `/` (the result of collapsing). -/
def noDouble : List Char → Bool
  | a :: b :: cs => if a = '/' ∧ b = '/' then false else noDouble (b :: cs)
  | _ => true

/-- The `prev`-flag of `collapseAux` after processing `l` starting from `b`:
whether the last character seen is a slash. -/
def stateAfter (b : Bool) (l : List Char) : Bool :=
  match lastChar l with
  | none => b
  | some c => decide (c = '/')

/-- Every character is a slash. -/
def allSlash (l : List Char) : Bool := l.all (fun c => decide (c = '/'))

/-- A slash-normalized path: starts with `/`, has no repeated slashes, and
ends with `/` only when it is exactly the root — the shape of every
`resolvePath` result. -/
def normSlash (l : List Char) : Prop :=
  l.head? = some '/' ∧ noDouble l = true ∧ (lastChar l = some '/' → l = ['/'])

/-! ## Data model

`RouteMut` mirrors the mutable resolved-route record (`createEmptyRoute`);
errors are carried as their message strings.  Resolved components are
`Option String` (`null` slot or a concrete component value, as in the test
suite where components resolve to strings). -/

/-- The mutable route record (`RouteMut` type in `internal.ts`): `href`,
`path`, resolved `comps`, `params`, `search`, `error`, `errorIndex`.  Params
and search are association lists with JS object-assignment semantics. -/
structure RouteMut where
  href : String
  path : String
  comps : List (Option String)
  params : List (String × String)
  search : List (String × String)
  error : Option String
  errorIndex : Option Nat
deriving DecidableEq

/-- `createEmptyRoute()` from `internal.ts`. -/
def createEmptyRoute : RouteMut :=
  ⟨"", "", [], [], [], none, none⟩

/-- How a hook or load function settles: fulfilled, rejected with an error, or
rejected with a `Redirect` control-flow signal thrown by `redirect(to)`. -/
inductive Outcome where
  | ok : Outcome
  | err (e : String) : Outcome
  | redir (t : String) : Outcome
deriving DecidableEq

/-- A navigation hook (`before` and `after` hooks): receives `to` and `from`
(the `context` and `signal` of the hook argument object play no role in the
claims and are omitted). -/
def HookFn := RouteMut → RouteMut → Outcome

/-- A load function: receives `to` (load hook arguments omit `from`). -/
def LoadFn := RouteMut → Outcome

/-- A `parseSearch` function: receives the parsed query parameters and either
returns an object merged into `to.search` or throws. -/
def SearchFn := List (String × String) → Except String (List (String × String))

/-- A `parseParams` function: receives the filtered capture groups and either
returns the parsed params object or throws. -/
def ParamsFn := List (String × String) → Except String (List (String × String))

/-- One entry of a route config `comps` array: `null`, an already-resolved
component, a lazy thunk (stamped with `__ruta` at insertion) that resolves to
the given component, or a lazy thunk whose import promise rejects.  The
in-place memoization performed by `#queueComps` (overwriting a lazy slot with
its resolved value) is not modelled: it only replaces a thunk by the value it
resolves to and is invisible to the resolved result. -/
inductive Comp where
  | nullc : Comp
  | val (s : String) : Comp
  | lazy (s : String) : Comp
  | lazyFail (e : String) : Comp
deriving DecidableEq

/-- A route definition (`RouteConfig` in `internal.ts`): absolute `path`, the
optional dynamic-segment `pattern`, the 4-slot `comps` array
`[layout error, layout, page error, page]`, the 2-slot `loads` and `search`
arrays, and the optional `parseParams`. -/
structure RouteConfig where
  path : String
  pattern : Option String
  comps : List Comp
  loads : List (Option LoadFn)
  search : List (Option SearchFn)
  parseParams : Option ParamsFn

/-- A trie node (`Node` in `internal.ts`): display segment, static children
(a `Map` modelled as an insertion-ordered association list), at most one
dynamic child, and optional terminal route data. -/
inductive Node where
  | mk (seg : String) (statics : List (String × Node)) (dyn : Option Node)
      (data : Option RouteConfig) : Node

/-- `node.seg`. -/
def Node.seg : Node → String
  | .mk s _ _ _ => s

/-- `node.static`. -/
def Node.statics : Node → List (String × Node)
  | .mk _ st _ _ => st

/-- `node.dyn`. -/
def Node.dyn : Node → Option Node
  | .mk _ _ d _ => d

/-- `node.data`. -/
def Node.data : Node → Option RouteConfig
  | .mk _ _ _ d => d

/-- `Map.prototype.get`. -/
def getStatic : List (String × Node) → String → Option Node
  | [], _ => none
  | (k, v) :: rest, s => if k = s then some v else getStatic rest s

/-- `Map.prototype.set`: an existing key is updated in place (keeping its
position), a new key is appended. -/
def setStatic : List (String × Node) → String → Node → List (String × Node)
  | [], k, v => [(k, v)]
  | (k0, v0) :: rest, k, v =>
    if k0 = k then (k, v) :: rest else (k0, v0) :: setStatic rest k v

/-- JS `String.prototype.split('/')` on the character list: pieces between
slashes, keeping empty pieces (`''.split` yields one empty piece). -/
def splitOnSlash : List Char → List (List Char)
  | [] => [[]]
  | c :: cs =>
    if c = '/' then [] :: splitOnSlash cs
    else
      match splitOnSlash cs with
      | s :: ss => (c :: s) :: ss
      | [] => [[c]]

/-- `absPath.split('/')` producing strings. -/
def splitSegs (s : String) : List String :=
  (splitOnSlash s.data).map String.mk

/-- The walking/creating loop of `Ruta.#insert`: empty segments are skipped,
a segment containing `:` goes to (or creates) the single dynamic child, other
segments go to (or create) the static child map; the route is attached as
`data` on the terminal node, overwriting previous data. -/
def insertSegs (route : RouteConfig) : Node → List String → Node
  | node, [] => Node.mk node.seg node.statics node.dyn (some route)
  | node, seg :: rest =>
    if seg = "" then insertSegs route node rest
    else if seg.data.contains ':' then
      let child := node.dyn.getD (Node.mk seg [] none none)
      Node.mk node.seg node.statics (some (insertSegs route child rest)) node.data
    else
      let child := (getStatic node.statics seg).getD (Node.mk seg [] none none)
      Node.mk node.seg (setStatic node.statics seg (insertSegs route child rest)) node.dyn node.data

/-- `Ruta.#insert(absPath, route)`: the configuration assertions (path key
matches, `comps` has 4 entries, `loads` and `search` have 2, the page
component slot is non-null) followed by the trie walk.  An assertion failure
is an `Except.error` (the source throws). -/
def insertRoute (root : Node) (absPath : String) (route : RouteConfig) : Except String Node :=
  if ¬ absPath = route.path then .error "assert: absPath should be route.path"
  else if ¬ route.comps.length = 4 then .error "assert: route.comps should have 4 entries"
  else if ¬ route.loads.length = 2 then .error "assert: route.loads should have 2 entries"
  else if ¬ route.search.length = 2 then .error "assert: route.search should have 2 entries"
  else if route.comps.getD 3 Comp.nullc = Comp.nullc then
    .error "assert: route should at least have page component"
  else .ok (insertSegs route root (splitSegs absPath))

/-! ## Trie lookup (`Ruta.#lookup`, `Ruta.#lookupDynamic`, `Ruta.#queueComps`) -/

/-- One step of `Object.assign` for a single key: an existing key is updated
in place (JS objects keep the original key position), a new key is appended. -/
def setKey : List (String × String) → String → String → List (String × String)
  | [], k, v => [(k, v)]
  | (k0, v0) :: rest, k, v =>
    if k0 = k then (k, v) :: rest else (k0, v0) :: setKey rest k v

/-- `Object.assign(m, entries)`. -/
def assignEntries (m entries : List (String × String)) : List (String × String) :=
  entries.foldl (fun acc kv => setKey acc kv.1 kv.2) m

/-- Modelled from the spec (§3 `patternSpec`, §4.3 dynamic match extraction):
the per-segment matcher built by the route builder as
`new URLPattern(pathname: '/' + segment)` and executed against
`'/' + candidate segment`.  `URLPattern` is a web-platform API, not code of
this repository; only the plain `:name` template form is modelled (the `?`,
`*`, `+` modifier forms are not exercised by the routes under study and are
left unmatched): a `:name` template matches any single non-empty segment and
captures it in the group `name`. -/
def patExec (pat seg : String) : Option (List (String × String)) :=
  match pat.data with
  | ':' :: rest =>
    if rest = [] ∨ rest.contains '?' ∨ rest.contains '*' ∨ rest.contains '+' then none
    else if seg = "" then none
    else some [(String.mk rest, seg)]
  | _ => none

/-- The matched-route record assembled by `Ruta.#lookup`: terminal `path`,
the queued component slots, the per-level load and search function lists, and
the accumulated params. -/
structure MatchedRoute where
  path : String
  comps : List Comp
  loads : List (Option LoadFn)
  search : List (Option SearchFn)
  params : List (String × String)

/-- Result of `Ruta.#lookup`: an assertion failure (thrown `Error`), a `null`
return (no terminal node), or the matched route. -/
inductive LookupOut where
  | fault (msg : String) : LookupOut
  | nomatch : LookupOut
  | found (m : MatchedRoute) : LookupOut

/-- Side effects performed on `this.#to` and `onError` during the lookup by
`Ruta.#lookupDynamic` when `parseParams` throws: the captured
(error, errorIndex) pair — the last capture wins since the fields are
overwritten — and the `onError` call log, in call order. -/
structure LookupEff where
  captured : Option (String × Nat)
  log : List String
deriving DecidableEq

/-- Result of a successful `Ruta.#lookupDynamic` step: the dynamic node, the
params after `Object.assign`, and the capture effect if `parseParams` threw. -/
structure DynStep where
  node : Ruta.Node
  params : List (String × String)
  captured : Option (String × Nat)
  log : List String

/-- `Ruta.#queueComps(route, comps, from, to)` restricted to its result: the
bounds assertion, then the slots `route.comps[from..to)` in order (each slot
is pushed exactly once, lazy or not). -/
def queueComps (route : RouteConfig) (i j : Nat) : Except String (List Comp) :=
  if i < route.comps.length ∧ j ≤ route.comps.length then
    .ok ((route.comps.drop i).take (j - i))
  else .error "assert: from and to should be within route.comps.length"

/-- `Ruta.#lookupDynamic(node, segment, params, index)`: no dynamic child
means `null`; the dynamic node must carry `data` with a `pattern`
(assertions); a failed pattern match means `null`; on a match the groups with
empty values are filtered out, `parseParams` is applied when present (its
result assigned into `params`), and a throwing `parseParams` assigns the raw
filtered groups, captures the error at the given level index and calls
`onError` — the dynamic node is still returned so the lookup continues. -/
def lookupDynamic (node : Ruta.Node) (seg : String) (params : List (String × String))
    (idx : Nat) : Except String (Option DynStep) :=
  match node.dyn with
  | none => .ok none
  | some dynNode =>
    match dynNode.data with
    | none => .error "assert: dynNode.data should be defined"
    | some dd =>
      match dd.pattern with
      | none => .error "assert: dynNode.data.pattern should be defined"
      | some pat =>
        match patExec pat seg with
        | none => .ok none
        | some groups =>
          let filtered := groups.filter (fun kv => ¬ kv.2 = "")
          match dd.parseParams with
          | none => .ok (some ⟨dynNode, assignEntries params filtered, none, []⟩)
          | some f =>
            match f filtered with
            | .ok r => .ok (some ⟨dynNode, assignEntries params r, none, []⟩)
            | .error e =>
              .ok (some ⟨dynNode, assignEntries params filtered, some (e, idx), [e]⟩)

/-- The per-level bookkeeping done at the top of the `Ruta.#lookup` loop for a
matched node: queue the level error+layout component pair (`comps[0..2)`) and
push the layout-level load (`loads[0]`) and search (`search[0]`) functions. -/
def emitLayer (d : RouteConfig) (comps : List Comp) (loads : List (Option LoadFn))
    (search : List (Option SearchFn)) :
    Except String (List Comp × List (Option LoadFn) × List (Option SearchFn)) :=
  match queueComps d 0 2 with
  | .error e => .error e
  | .ok cs => .ok (comps ++ cs, loads ++ [d.loads.getD 0 none], search ++ [d.search.getD 0 none])

/-- The `while` loop of `Ruta.#lookup` after the root layer has been emitted:
`idx` is the position in the segment array; empty segments are skipped; a
static child is preferred over the dynamic child; a matched node must carry
`data` (assertion at the next loop top) and contributes its layer; when the
segments are exhausted the terminal node additionally contributes its
error+page pair (`comps[2..4)`), page load (`loads[1]`) and page search
(`search[1]`). -/
def lookupGo : Ruta.Node → List String → Nat → List (String × String) → List Comp →
    List (Option LoadFn) → List (Option SearchFn) → Option (String × Nat) → List String →
    LookupOut × LookupEff
  | node, [], _, params, comps, loads, search, cap, log =>
    match node.data with
    | none => (.fault "assert: node.data should be defined", ⟨cap, log⟩)
    | some d =>
      match queueComps d 2 4 with
      | .error e => (.fault e, ⟨cap, log⟩)
      | .ok cs =>
        if (comps ++ cs).length = 0 then (.fault "assert: comps should not be empty", ⟨cap, log⟩)
        else
          (.found ⟨d.path, comps ++ cs, loads ++ [d.loads.getD 1 none],
            search ++ [d.search.getD 1 none], params⟩, ⟨cap, log⟩)
  | node, seg :: rest, idx, params, comps, loads, search, cap, log =>
    if seg = "" then lookupGo node rest (idx + 1) params comps loads search cap log
    else
      match getStatic node.statics seg with
      | some child =>
        match child.data with
        | none => (.fault "assert: node.data should be defined", ⟨cap, log⟩)
        | some d =>
          match emitLayer d comps loads search with
          | .error e => (.fault e, ⟨cap, log⟩)
          | .ok (comps, loads, search) =>
            lookupGo child rest (idx + 1) params comps loads search cap log
      | none =>
        match lookupDynamic node seg params idx with
        | .error e => (.fault e, ⟨cap, log⟩)
        | .ok none => (.nomatch, ⟨cap, log⟩)
        | .ok (some step) =>
          match step.node.data with
          | none => (.fault "assert: node.data should be defined", ⟨cap, log ++ step.log⟩)
          | some d =>
            match emitLayer d comps loads search with
            | .error e => (.fault e, ⟨cap, log ++ step.log⟩)
            | .ok (comps, loads, search) =>
              lookupGo step.node rest (idx + 1) step.params comps loads search
                (match step.captured with | none => cap | some c => some c)
                (log ++ step.log)

/-- `Ruta.#lookup(absPath)`: the root node is always matched first (its data
is asserted and its layer emitted), then the segment walk. -/
def lookup (root : Ruta.Node) (absPath : String) : LookupOut × LookupEff :=
  match root.data with
  | none => (.fault "assert: node.data should be defined", ⟨none, []⟩)
  | some d =>
    match emitLayer d [] [] [] with
    | .error e => (.fault e, ⟨none, []⟩)
    | .ok (comps, loads, search) =>
      lookupGo root (splitSegs absPath) 0 [] comps loads search none []

/-! ## Navigation engine (`Ruta.#matchRoute`, `Ruta.#runHooks`,
`Ruta.#resolveComps`, `Ruta.#handleNavigate`, `Ruta.navigate`) -/

/-- The router's mutable state: the settled route (`#from`), the in-flight
route (`#to`), the sequence of `onError` invocations (`errLog`), the sequence
of `warn` invocations (`warnLog`), and a ghost `trace` recording which hook
stages actually executed user code (used to state that a stage did not run). -/
structure RouterState where
  fromRoute : RouteMut
  toRoute : RouteMut
  errLog : List String
  warnLog : List String
  trace : List String
deriving DecidableEq

/-- Initial router state: `#from` and `#to` start as empty routes. -/
def initialState : RouterState :=
  ⟨createEmptyRoute, createEmptyRoute, [], [], []⟩

/-- The immutable part of a router: base path, route trie, and the hook lists
registered before the first navigation. -/
structure Router where
  base : String
  rootNode : Ruta.Node
  hooksBefore : List HookFn
  hooksAfter : List HookFn

/-- The `Ruta` constructor on a non-browser target: `options.base || '/'` (an
empty base is falsy and becomes `/`), normalized; routes are inserted in
order into a fresh root node `seg: '/'`; a configuration assertion failure
during insertion is an `Except.error`. -/
def mkRuta (base : Option String) (routes : List (String × RouteConfig))
    (hooksBefore hooksAfter : List HookFn) : Except String Router := do
  let b := match base with | none => "/" | some s => if s = "" then "/" else s
  let root ← routes.foldlM (fun n pr => insertRoute n pr.1 pr.2) (Ruta.Node.mk "/" [] none none)
  .ok ⟨normalizeBase b, root, hooksBefore, hooksAfter⟩

/-- `url.pathname` for `new URL(hrefWithoutBase, FAKE_ORIGIN)` restricted to
the hrefs the engine builds (a path optionally followed by `?query`):
everything before the first `?` or `#`.  (Percent-decoding and dot-segment
normalization of `URL` are not exercised by the routes under study.) -/
def urlPathname (s : String) : String :=
  String.mk (s.data.takeWhile (fun c => ¬ c = '?' ∧ ¬ c = '#'))

/-- Split a query string on `&`. -/
def splitOnAmp : List Char → List (List Char)
  | [] => [[]]
  | c :: cs =>
    if c = '&' then [] :: splitOnAmp cs
    else
      match splitOnAmp cs with
      | s :: ss => (c :: s) :: ss
      | [] => [[c]]

/-- One `k=v` query pair (value empty when `=` is absent). -/
def queryPair (l : List Char) : String × String :=
  (String.mk (l.takeWhile (fun c => ¬ c = '=')),
   String.mk ((l.dropWhile (fun c => ¬ c = '=')).drop 1))

/-- `url.searchParams` as an association list: the part after `?` split on
`&`, empty pieces skipped, each piece split at its first `=`.
(Percent-decoding is not modelled; the queries under study use none.) -/
def urlSearchParams (s : String) : List (String × String) :=
  let q := ((s.data.dropWhile (fun c => ¬ c = '?')).drop 1).takeWhile (fun c => ¬ c = '#')
  ((splitOnAmp q).filter (fun p => ¬ p = [])).map queryPair

/-- The first non-fulfilled outcome of a hook group together with its index:
under `Promise.all`, synchronous hooks settle in index order, so the first
rejection in list order is the one delivered to the `catch` handler. -/
def firstBad : List Outcome → Option (Nat × Outcome)
  | [] => none
  | o :: rest =>
    match o with
    | .ok => (firstBad rest).map (fun p => (p.1 + 1, p.2))
    | bad => some (0, bad)

/-- The search-function loop of `Ruta.#matchRoute`: each entry of the matched
route's `search` list is applied to the query params and assigned into
`to.search`; a `null` entry is skipped; the first throwing entry captures the
error at its list index, calls `onError` and breaks the loop. -/
def runSearch : RouterState → List (Option SearchFn) → List (String × String) → Nat →
    RouterState
  | st, [], _, _ => st
  | st, fn :: rest, qs, i =>
    match fn with
    | none => runSearch st rest qs (i + 1)
    | some f =>
      match f qs with
      | .ok r =>
        runSearch
          { st with toRoute := { st.toRoute with search := assignEntries st.toRoute.search r } }
          rest qs (i + 1)
      | .error e =>
        { st with
          toRoute := { st.toRoute with error := some e, errorIndex := some i },
          errLog := st.errLog ++ [e] }

/-- `Ruta.#runHooks(hooks)` with `isHook = true` (navigation hooks): an empty
list returns immediately; otherwise the hooks run (trace event) against the
current `to`/`from`; the first rejection either rethrows a redirect (returned
as `some target`) or captures the error with `errorIndex = 0` and calls
`onError`. -/
def runHooks (st : RouterState) (hooks : List HookFn) (stage : String) :
    RouterState × Option String :=
  if hooks.isEmpty then (st, none)
  else
    let st := { st with trace := st.trace ++ [stage] }
    match firstBad (hooks.map (fun h => h st.toRoute st.fromRoute)) with
    | none => (st, none)
    | some (_, .redir t) => (st, some t)
    | some (_, .err e) =>
      ({ st with
          toRoute := { st.toRoute with error := some e, errorIndex := some 0 },
          errLog := st.errLog ++ [e] }, none)
    | some (_, .ok) => (st, none)

/-- `Ruta.#runHooks(loads, false)`: an empty list or an already-captured error
on `to` returns immediately (load hooks are skipped on prior errors);
otherwise the non-null loads run (trace event); the first rejection either
rethrows a redirect or captures the error with `errorIndex` equal to the
rejecting load's index in the list and calls `onError`. -/
def runLoads (st : RouterState) (loads : List (Option LoadFn)) :
    RouterState × Option String :=
  if loads.isEmpty then (st, none)
  else if st.toRoute.error.isSome then (st, none)
  else
    let st := { st with trace := st.trace ++ ["loads"] }
    match firstBad (loads.map (fun l => match l with | none => Outcome.ok | some f => f st.toRoute)) with
    | none => (st, none)
    | some (_, .redir t) => (st, some t)
    | some (i, .err e) =>
      ({ st with
          toRoute := { st.toRoute with error := some e, errorIndex := some i },
          errLog := st.errLog ++ [e] }, none)
    | some (_, .ok) => (st, none)

/-- The scan over `Promise.allSettled(comps)` in `Ruta.#resolveComps`:
fulfilled slots push their resolved value (`null` slots push `null`); the
first rejected slot pushes `null`, yields the error with level index
`Nat.floor (i / 2)` and stops the scan. -/
def resolveCompsList : Nat → List Comp → List (Option String) × Option (String × Nat)
  | _, [] => ([], none)
  | i, c :: rest =>
    match c with
    | .nullc =>
      match resolveCompsList (i + 1) rest with
      | (l, e) => (none :: l, e)
    | .val s =>
      match resolveCompsList (i + 1) rest with
      | (l, e) => (some s :: l, e)
    | .lazy s =>
      match resolveCompsList (i + 1) rest with
      | (l, e) => (some s :: l, e)
    | .lazyFail e => ([none], some (e, i / 2))

/-- The state effect of `Ruta.#resolveComps` after its entry assertions: the
resolved component list is written to `to.comps` (trace event); a rejected
component captures the error at `floor(index / 2)` and calls `onError`. -/
def resolveCompsCore (st : RouterState) (comps : List Comp) : RouterState :=
  let st := { st with trace := st.trace ++ ["comps"] }
  match resolveCompsList 0 comps with
  | (l, none) => { st with toRoute := { st.toRoute with comps := l } }
  | (l, some (e, k)) =>
    { st with
      toRoute := { st.toRoute with comps := l, error := some e, errorIndex := some k },
      errLog := st.errLog ++ [e] }

/-- How a `Ruta.#matchRoute` attempt aborts: a thrown `Redirect` (handled by
`Ruta.#handleNavigate`) or a thrown assertion `Error` (unexpected fault). -/
inductive NavAbort where
  | redir (t : String) : NavAbort
  | fault (msg : String) : NavAbort

/-- The `warn` message of an unmatched navigation. -/
def unmatchedMsg (href : String) : String := "unmatched url " ++ href ++ "."

/-- `Ruta.#matchRoute(href, preload)`:

1. return immediately when `href` equals the settled `from.href`;
2. compute `hrefWithoutBase` and the URL parts, reset `#to` to a fresh empty
   route, and run the trie lookup (whose captured parse errors and `onError`
   calls are applied to the fresh `to`);
3. an unmatched lookup warns and abandons the attempt; an assertion failure
   aborts with a fault;
4. otherwise `to.href`, `to.path`, `to.params` are filled, the search
   functions run, the before hooks run, then (concurrently in the source) the
   loads run against the stage-entry `to` and the components resolve — a load
   rejection settles first for synchronous loads, so a later component
   rejection overwrites the captured error;
5. unless this is a preload, the after hooks run, `to` is promoted to `from`,
   and the final error-consistency assertion is checked. -/
def matchRoute (r : Router) (st : RouterState) (href : String) (preload : Bool) :
    RouterState × Option NavAbort :=
  if st.fromRoute.href = href then (st, none)
  else
    let hrefWB := resolvePath [trimBase href r.base]
    let pathname := urlPathname hrefWB
    let qs := urlSearchParams hrefWB
    let st := { st with toRoute := createEmptyRoute }
    match lookup r.rootNode pathname with
    | (out, eff) =>
      let st :=
        { st with
          toRoute := { st.toRoute with
            error := match eff.captured with | some p => some p.1 | none => none,
            errorIndex := match eff.captured with | some p => some p.2 | none => none },
          errLog := st.errLog ++ eff.log }
      match out with
      | .fault m => (st, some (.fault m))
      | .nomatch => ({ st with warnLog := st.warnLog ++ [unmatchedMsg href] }, none)
      | .found m =>
        let st :=
          { st with toRoute := { st.toRoute with href := href, path := m.path, params := m.params } }
        let st := runSearch st m.search qs 0
        match runHooks st r.hooksBefore "before" with
        | (st, some t) => (st, some (.redir t))
        | (st, none) =>
          if m.comps.length = 0 then
            (st, some (.fault "assert: comps should not be empty"))
          else if ¬ st.toRoute.comps.length = 0 then
            (st, some (.fault "assert: to.comps should be empty"))
          else
            match runLoads st m.loads with
            | (st, some t) => (st, some (.redir t))
            | (st, none) =>
              let st := resolveCompsCore st m.comps
              if preload then (st, none)
              else
                match runHooks st r.hooksAfter "after" with
                | (st, some t) => (st, some (.redir t))
                | (st, none) =>
                  let st := { st with fromRoute := st.toRoute }
                  if (st.toRoute.error.isSome ∨ st.toRoute.errorIndex.isSome) ∧
                      ¬ (st.toRoute.error.isSome ∧ st.toRoute.errorIndex.isSome) then
                    (st, some (.fault "assert: to.error and to.errorIndex should be consistent"))
                  else (st, none)

/-- `Ruta.#handleNavigate(href, preload)` on a non-browser target: apply
`this.href` to the incoming target, run `#matchRoute`; a thrown `Redirect`
restarts the whole attempt against the redirect target (fuel bounds the
redirect chain; the source has no bound and would loop forever on a cycle); a
thrown fault is reported to `onError` and rethrown to the caller. -/
def handleNavigate (r : Router) : Nat → RouterState → String → Bool →
    RouterState × Except String String
  | 0, st, _, _ => (st, .error "redirect fuel exhausted")
  | fuel + 1, st, target, preload =>
    let h := href r.base target
    match matchRoute r st h preload with
    | (st, none) => (st, .ok h)
    | (st, some (.redir t)) => handleNavigate r fuel st t preload
    | (st, some (.fault m)) => ({ st with errLog := st.errLog ++ [m] }, .error m)

/-- `Ruta.navigate(to)` on a non-browser target with a string target: compute
`this.href(to)` and run `#handleNavigate` (which applies `this.href` again);
the returned promise resolves unless an unexpected fault was rethrown. -/
def navigate (r : Router) (fuel : Nat) (st : RouterState) (target : String) :
    RouterState × Except String Unit :=
  let h := href r.base target
  match handleNavigate r fuel st h false with
  | (st, .ok _) => (st, .ok ())
  | (st, .error m) => (st, .error m)

/-! ## Result projections (data-only views used to state concrete facts) -/

/-- True when the lookup threw an assertion `Error`. -/
def LookupOut.isFault : LookupOut → Bool
  | .fault _ => true
  | _ => false

/-- Number of queued component slots of a successful lookup. -/
def LookupOut.compsLength : LookupOut → Option Nat
  | .found m => some m.comps.length
  | _ => none

/-- Number of collected load-function slots of a successful lookup. -/
def LookupOut.loadsLength : LookupOut → Option Nat
  | .found m => some m.loads.length
  | _ => none

/-- `path` of a successful lookup. -/
def LookupOut.pathOf : LookupOut → Option String
  | .found m => some m.path
  | _ => none

/-- `params` of a successful lookup. -/
def LookupOut.paramsOf : LookupOut → Option (List (String × String))
  | .found m => some m.params
  | _ => none

end Ruta

namespace Scenario

open Ruta

/-! ## Concrete routers used by the claims

These mirror the registrations of the repository test suite: every route
config carries the 4-slot comps array `[null, lazy layout, null, lazy page]`
(as produced by the generated wiring), empty loads/search slots unless a
scenario installs one, and a pattern exactly when its last segment is
dynamic. -/

/-- A plain route config with lazy layout and page components and no hooks. -/
def rc (p : String) (pat : Option String) (layoutName pageName : String) : RouteConfig :=
  ⟨p, pat, [Comp.nullc, Comp.lazy layoutName, Comp.nullc, Comp.lazy pageName],
    [none, none], [none, none], none⟩

/-- Build a router, defaulting to an empty one if a configuration assertion
fires (the scenarios below all insert successfully). -/
def mkRutaD (base : Option String) (routes : List (String × RouteConfig))
    (hb ha : List HookFn) : Router :=
  (mkRuta base routes hb ha).toOption.getD ⟨"/", Ruta.Node.mk "/" [] none none, [], []⟩

/-- Root (static) + `/settings` (static) + `/settings/:tab` (dynamic): the C1
scenario. -/
def routerC1 : Router :=
  mkRutaD none
    [("/", rc "/" none "root layout" "root page"),
     ("/settings", rc "/settings" none "settings layout" "settings page"),
     ("/settings/:tab", rc "/settings/:tab" (some ":tab") "tab layout" "tab page")] [] []

/-- `/child` whose layout load redirects to `/` (the C2 scenario). -/
def childRedirCfg : RouteConfig :=
  ⟨"/child", none, [Comp.nullc, Comp.lazy "child layout", Comp.nullc, Comp.lazy "child page"],
    [some (fun t => if t.path = "/child" then Outcome.redir "/" else Outcome.ok), none],
    [none, none], none⟩

/-- Root + redirecting `/child`. -/
def routerC2 : Router :=
  mkRutaD none
    [("/", rc "/" none "root layout" "root page"), ("/child", childRedirCfg)] [] []

/-- Root route whose page load throws (the C4 counterexample scenario). -/
def rootPageErrCfg : RouteConfig :=
  ⟨"/", none, [Comp.nullc, Comp.lazy "root layout", Comp.nullc, Comp.lazy "root page"],
    [none, some (fun _ => Outcome.err "root page load error")], [none, none], none⟩

/-- Router with only the failing-page-load root route. -/
def routerC4a : Router := mkRutaD none [("/", rootPageErrCfg)] [] []

/-- `/child/nested` whose layout load throws. -/
def nestedLayoutErrCfg : RouteConfig :=
  ⟨"/child/nested", none,
    [Comp.nullc, Comp.lazy "nested layout", Comp.nullc, Comp.lazy "nested page"],
    [some (fun _ => Outcome.err "nested layout load error"), none], [none, none], none⟩

/-- `/child/nested` whose page load throws. -/
def nestedPageErrCfg : RouteConfig :=
  ⟨"/child/nested", none,
    [Comp.nullc, Comp.lazy "nested layout", Comp.nullc, Comp.lazy "nested page"],
    [none, some (fun _ => Outcome.err "nested page load error")], [none, none], none⟩

/-- Three-level chain with the failing layout load at level 2. -/
def routerC4b : Router :=
  mkRutaD none
    [("/", rc "/" none "root layout" "root page"),
     ("/child", rc "/child" none "child layout" "child page"),
     ("/child/nested", nestedLayoutErrCfg)] [] []

/-- Three-level chain with the failing page load on the terminal route. -/
def routerC4c : Router :=
  mkRutaD none
    [("/", rc "/" none "root layout" "root page"),
     ("/child", rc "/child" none "child layout" "child page"),
     ("/child/nested", nestedPageErrCfg)] [] []

/-- Router with two before hooks, the second of which throws. -/
def routerC4d : Router :=
  mkRutaD none [("/", rc "/" none "root layout" "root page")]
    [fun _ _ => Outcome.ok, fun _ _ => Outcome.err "second before hook error"] []

/-- `/users/:id` whose `parseParams` always throws (the C5 scenario). -/
def idThrowCfg : RouteConfig :=
  ⟨"/users/:id", some ":id",
    [Comp.nullc, Comp.lazy "id layout", Comp.nullc, Comp.lazy "id page"],
    [none, none], [none, none],
    some (fun _ => Except.error "bad id")⟩

/-- Static child below the dynamic level, to observe that later levels still
populate. -/
def postsCfg : RouteConfig :=
  ⟨"/users/:id/posts", none,
    [Comp.nullc, Comp.lazy "posts layout", Comp.nullc, Comp.lazy "posts page"],
    [none, none], [none, none], none⟩

/-- Four-level chain with the throwing `parseParams` at level 2. -/
def routerC5 : Router :=
  mkRutaD none
    [("/", rc "/" none "root layout" "root page"),
     ("/users", rc "/users" none "users layout" "users page"),
     ("/users/:id", idThrowCfg),
     ("/users/:id/posts", postsCfg)] [] []

/-- Three-level chain with a plain (no `parseParams`) dynamic terminal. -/
def routerC5b : Router :=
  mkRutaD none
    [("/", rc "/" none "root layout" "root page"),
     ("/users", rc "/users" none "users layout" "users page"),
     ("/users/:id", rc "/users/:id" (some ":id") "id layout" "id page")] [] []

/-- Root and `/users/:id` with no route registered at `/users`: the C8
data-less intermediate scenario. -/
def routerC8 : Router :=
  mkRutaD none
    [("/", rc "/" none "root layout" "root page"),
     ("/users/:id", rc "/users/:id" (some ":id") "id layout" "id page")] [] []

/-- Two dynamic routes inserted at the same trie position (the C9 scenario):
`/users/:id` first, `/users/:uid` second. -/
def routerC9 : Router :=
  mkRutaD none
    [("/", rc "/" none "root layout" "root page"),
     ("/users", rc "/users" none "users layout" "users page"),
     ("/users/:id", rc "/users/:id" (some ":id") "id layout" "id page"),
     ("/users/:uid", rc "/users/:uid" (some ":uid") "uid layout" "uid page")] [] []

/-- A state settled on `/settings` (used by the C3 and C6 scenarios). -/
def settledSettings : RouterState :=
  (navigate routerC1 5 initialState "/settings").1

/-- The matched route of the C1 lookup (extracted for witness statements). -/
def c1Matched : MatchedRoute :=
  match lookup routerC1.rootNode "/settings/profile" with
  | (.found m, _) => m
  | _ => ⟨"", [], [], [], []⟩

/-- The state of the C2 attempt at the instant its load redirect aborts it. -/
def c2Aborted : RouterState :=
  (matchRoute routerC2 initialState (Ruta.href routerC2.base "/child") false).1

end Scenario

/-- Decidable equality of `Except` results (used to evaluate concrete
navigation outcomes). -/
instance {e a : Type} [DecidableEq e] [DecidableEq a] : DecidableEq (Except e a) := fun x y =>
  match x, y with
  | .ok v, .ok w =>
    if h : v = w then isTrue (by rw [h]) else isFalse (fun hh => h (Except.ok.inj hh))
  | .error v, .error w =>
    if h : v = w then isTrue (by rw [h]) else isFalse (fun hh => h (Except.error.inj hh))
  | .ok _, .error _ => isFalse (fun hh => Except.noConfusion hh)
  | .error _, .ok _ => isFalse (fun hh => Except.noConfusion hh)

section PathChecks

example : Ruta.resolvePath ["", "/", "abc", "", "def", "ghi", ""] = "/abc/def/ghi" := by decide
example : Ruta.resolvePath [""] = "/" := by decide
example : Ruta.trimBase "https://abc.xyz/abc/mno" "/abc" = "/mno" := by decide
example : Ruta.trimBase "/abc/def/ghi/abc" "/abc" = "/def/ghi/abc" := by decide

end PathChecks

namespace Ruta

/-! ## Engine lemmas -/

/-- A successful `queueComps` slice has exactly `j - i` entries. -/
lemma queueComps_ok_length {d : RouteConfig} {i j : Nat} {cs : List Comp}
    (hij : i ≤ j) (h : queueComps d i j = .ok cs) : cs.length = j - i := by
  unfold queueComps at h
  split at h
  · rename_i hc
    cases h
    simp only [List.length_take, List.length_drop]
    omega
  · exact Except.noConfusion h

/-- A successful `emitLayer` adds two component slots and one load slot. -/
lemma emitLayer_ok {d : RouteConfig} {comps : List Comp} {loads : List (Option LoadFn)}
    {search : List (Option SearchFn)} {c2 : List Comp} {l2 : List (Option LoadFn)}
    {s2 : List (Option SearchFn)}
    (h : emitLayer d comps loads search = .ok (c2, l2, s2)) :
    c2.length = comps.length + 2 ∧ l2.length = loads.length + 1 := by
  unfold emitLayer at h
  cases hq : queueComps d 0 2 with
  | error e => rw [hq] at h; exact Except.noConfusion h
  | ok cs =>
    rw [hq] at h
    cases h
    have := queueComps_ok_length (by omega) hq
    simp [this]

/-- Loop invariant of `Ruta.#lookup`: each matched level contributes two
component slots and one load slot, so a found route keeps
`comps.length = 2 * loads.length`. -/
lemma lookupGo_found_length :
    ∀ (segs : List String) (node : Ruta.Node) (idx : Nat) (params : List (String × String))
      (comps : List Comp) (loads : List (Option LoadFn)) (search : List (Option SearchFn))
      (cap : Option (String × Nat)) (log : List String) (m : MatchedRoute) (eff : LookupEff),
      comps.length = 2 * loads.length →
      lookupGo node segs idx params comps loads search cap log = (.found m, eff) →
      m.comps.length = 2 * m.loads.length := by
  intro segs
  induction segs with
  | nil =>
    intro node idx params comps loads search cap log m eff hlen h
    unfold lookupGo at h
    split at h
    · simp at h
    · rename_i d hd
      split at h
      · simp at h
      · rename_i cs hq
        split at h
        · simp at h
        · simp only [Prod.mk.injEq, LookupOut.found.injEq] at h
          obtain ⟨hm, -⟩ := h
          subst hm
          have hcs : cs.length = 2 := queueComps_ok_length (by omega) hq
          simp [hcs, hlen]
          ring
  | cons seg rest ih =>
    intro node idx params comps loads search cap log m eff hlen h
    unfold lookupGo at h
    split at h
    · exact ih node (idx + 1) params comps loads search cap log m eff hlen h
    · split at h
      · split at h
        · simp at h
        · split at h
          · simp at h
          · rename_i he
            refine ih _ _ _ _ _ _ _ _ _ _ ?_ h
            have := emitLayer_ok he
            omega
      · split at h
        · simp at h
        · simp at h
        · split at h
          · simp at h
          · split at h
            · simp at h
            · rename_i he
              refine ih _ _ _ _ _ _ _ _ _ _ ?_ h
              have := emitLayer_ok he
              omega

/-- Every found lookup satisfies `comps.length = 2 * loads.length`; since the
loads list holds one layout load per matched level plus the terminal page
load, this is `2 * (levels + 1)`. -/
lemma lookup_found_length (root : Ruta.Node) (absPath : String) (m : MatchedRoute)
    (eff : LookupEff) (h : lookup root absPath = (.found m, eff)) :
    m.comps.length = 2 * m.loads.length := by
  unfold lookup at h
  split at h
  · simp at h
  · split at h
    · simp at h
    · rename_i he
      refine lookupGo_found_length _ root 0 [] _ _ _ none [] m eff ?_ h
      have hh := emitLayer_ok he
      simp only [List.length_nil] at hh
      omega

/-- Navigation hooks that reject with an error capture it at stage level 0. -/
lemma runHooks_err_index_zero (st : RouterState) (hooks : List HookFn) (stage : String)
    (i : Nat) (e : String) (hne : ¬ hooks = [])
    (h : firstBad (hooks.map (fun h => h st.toRoute st.fromRoute)) = some (i, .err e)) :
    (runHooks st hooks stage).1.toRoute.errorIndex = some 0 ∧
    (runHooks st hooks stage).1.toRoute.error = some e := by
  simp [runHooks, hne, h]

/-- A load that rejects with an error captures it at its own list index. -/
lemma runLoads_err_index (st : RouterState) (loads : List (Option LoadFn)) (i : Nat)
    (e : String) (hne : ¬ loads = []) (herr : st.toRoute.error = none)
    (h : firstBad (loads.map (fun l => match l with | none => Outcome.ok | some f => f st.toRoute)) =
      some (i, .err e)) :
    (runLoads st loads).1.toRoute.errorIndex = some i := by
  simp [runLoads, hne, herr, h]

/-- A redirect raised by a navigation hook is rethrown without touching the
`onError` log. -/
lemma runHooks_redirect_clean (st : RouterState) (hooks : List HookFn) (stage : String)
    (i : Nat) (t : String) (hne : ¬ hooks = [])
    (h : firstBad (hooks.map (fun h => h st.toRoute st.fromRoute)) = some (i, .redir t)) :
    (runHooks st hooks stage).1.errLog = st.errLog ∧
    (runHooks st hooks stage).2 = some t := by
  simp [runHooks, hne, h]

/-- A redirect raised by a load function is rethrown without touching the
`onError` log. -/
lemma runLoads_redirect_clean (st : RouterState) (loads : List (Option LoadFn)) (i : Nat)
    (t : String) (hne : ¬ loads = []) (herr : st.toRoute.error = none)
    (h : firstBad (loads.map (fun l => match l with | none => Outcome.ok | some f => f st.toRoute)) =
      some (i, .redir t)) :
    (runLoads st loads).1.errLog = st.errLog ∧ (runLoads st loads).2 = some t := by
  simp [runLoads, hne, herr, h]

end Ruta

open Ruta Scenario

/-! ## Claim theorems -/

/-- C1 counterexample: in the stated scenario (static root, static
`/settings`, dynamic `/settings/:tab`), looking up `/settings/profile` does
not yield a component sequence of length 6 — it yields 8 slots (each of the
three matched levels contributes an error+layout pair and the terminal level
additionally contributes its error+page pair). -/
theorem c1_counterexample :
    ¬ (lookup routerC1.rootNode "/settings/profile").1.compsLength = some 6 := by
  decide

/-- C1 (amended): a found lookup always returns `comps` of length
`2 * loads.length`, i.e. `2 * (levels + 1)` where `levels` counts the matched
chain including the root, equivalently `2 * (depth + 2)` for `depth` proper
ancestors including root; for the scenario this is 8 (not 6), with
`params = [(tab, profile)]` and `path = /settings/:tab`. -/
theorem c1_comps_length :
    (∀ (root : Ruta.Node) (absPath : String) (m : MatchedRoute) (eff : LookupEff),
      lookup root absPath = (.found m, eff) → m.comps.length = 2 * m.loads.length)
    ∧ (lookup routerC1.rootNode "/settings/profile").1.compsLength = some 8
    ∧ (lookup routerC1.rootNode "/settings/profile").1.loadsLength = some 4
    ∧ (lookup routerC1.rootNode "/settings/profile").1.paramsOf = some [("tab", "profile")]
    ∧ (lookup routerC1.rootNode "/settings/profile").1.pathOf = some "/settings/:tab"
    ∧ (navigate routerC1 5 initialState "/settings/profile").1.fromRoute.path =
        "/settings/:tab" := by
  refine ⟨lookup_found_length, ?_, ?_, ?_, ?_, ?_⟩ <;> decide

/-- C1 witness: the general length invariant applied to the concrete scenario
lookup. -/
theorem c1_comps_length_witness :
    c1Matched.comps.length = 2 * c1Matched.loads.length :=
  c1_comps_length.1 routerC1.rootNode "/settings/profile" c1Matched ⟨none, []⟩ rfl

/-- C2: a redirect thrown in a before hook or load function is rethrown past
the error capture (so it never reaches `onError`) and `#handleNavigate`
restarts the machine on the redirect target instead of rejecting; in the
scenario where the `/child` layout load redirects to `/`, the navigation
settles with `from.href` equal to the target's href, an empty `onError` log,
and a fulfilled `navigate` promise. -/
theorem c2_redirect_transparent :
    (∀ (r : Router) (fuel : Nat) (st st2 : RouterState) (target t : String) (preload : Bool),
      matchRoute r st (Ruta.href r.base target) preload = (st2, some (.redir t)) →
      handleNavigate r (fuel + 1) st target preload = handleNavigate r fuel st2 t preload)
    ∧ (∀ (st : RouterState) (hooks : List HookFn) (stage : String) (i : Nat) (t : String),
      ¬ hooks = [] →
      firstBad (hooks.map (fun h => h st.toRoute st.fromRoute)) = some (i, .redir t) →
      (runHooks st hooks stage).1.errLog = st.errLog ∧ (runHooks st hooks stage).2 = some t)
    ∧ (∀ (st : RouterState) (loads : List (Option LoadFn)) (i : Nat) (t : String),
      ¬ loads = [] → st.toRoute.error = none →
      firstBad (loads.map (fun l => match l with | none => Outcome.ok | some f => f st.toRoute)) =
        some (i, .redir t) →
      (runLoads st loads).1.errLog = st.errLog ∧ (runLoads st loads).2 = some t)
    ∧ (navigate routerC2 5 initialState "/child").1.fromRoute.href = Ruta.href routerC2.base "/"
    ∧ (navigate routerC2 5 initialState "/child").1.errLog = []
    ∧ (navigate routerC2 5 initialState "/child").2 = Except.ok () := by
  refine ⟨?_, runHooks_redirect_clean, runLoads_redirect_clean, ?_, ?_, ?_⟩
  · intro r fuel st st2 target t preload h
    simp [handleNavigate, h]
  · decide
  · decide
  · decide

/-- C2 witness: the restart equation applied at the concrete redirecting
scenario (the aborted `/child` attempt continues as an attempt on `/`). -/
theorem c2_redirect_transparent_witness :
    handleNavigate routerC2 4 initialState "/child" false =
      handleNavigate routerC2 3 c2Aborted "/" false :=
  c2_redirect_transparent.1 routerC2 3 initialState c2Aborted "/child" "/" false rfl

/-- C3 counterexample: after settling on `/settings`, an unmatched navigation
to `/nope/x` does not leave the `to` record unchanged — `#matchRoute` resets
`#to` to a fresh empty route before the failed lookup. -/
theorem c3_counterexample :
    ¬ (matchRoute routerC1 settledSettings "/nope/x" false).1.toRoute =
      settledSettings.toRoute := by
  decide

/-- C3 (amended): for every navigation whose trie lookup finds no terminal
node — whatever error capture the failed lookup performed on the way — the
attempt is abandoned without an abort: `from` is untouched, no hook stage,
load or component resolution runs (the trace is unchanged), and the
`unmatched` warning is logged; `to`, however, is reset to a fresh empty route
at the start of the attempt and afterwards holds exactly the parse-error
capture (if any) recorded by a dynamic level during the failed lookup, whose
`onError` calls are appended to the error log. -/
theorem c3_unmatched_abandons (r : Router) (st : RouterState) (h2 : String)
    (cap : Option (String × Nat)) (log : List String)
    (hne : ¬ st.fromRoute.href = h2)
    (hlk : lookup r.rootNode (urlPathname (resolvePath [trimBase h2 r.base])) =
      (LookupOut.nomatch, ⟨cap, log⟩)) :
    matchRoute r st h2 false =
      ({ st with
          toRoute := { createEmptyRoute with
            error := match cap with | some p => some p.1 | none => none,
            errorIndex := match cap with | some p => some p.2 | none => none },
          errLog := st.errLog ++ log,
          warnLog := st.warnLog ++ [unmatchedMsg h2] }, none) := by
  cases cap with
  | none => simp [matchRoute, hne, hlk, createEmptyRoute]
  | some p => simp [matchRoute, hne, hlk, createEmptyRoute]

/-- C3 witness: the amended statement at an unmatched target whose failed
lookup did capture a throwing `parseParams` — `/users/42/bogus` under the
throwing `/users/:id` — so the error capture and `onError` call of the
abandoned attempt are exercised alongside the warning. -/
theorem c3_unmatched_abandons_witness :
    matchRoute routerC5 initialState "/users/42/bogus" false =
      ({ initialState with
          toRoute := { createEmptyRoute with error := some "bad id", errorIndex := some 2 },
          errLog := ["bad id"],
          warnLog := [unmatchedMsg "/users/42/bogus"] }, none) :=
  c3_unmatched_abandons routerC5 initialState "/users/42/bogus" (some ("bad id", 2)) ["bad id"]
    (by decide) rfl

/-- C4 counterexample: the load function of the root route (nested level 0)
throwing does not yield `errorIndex = 0` — the terminal page load is captured
at index 1 (one past its level), as the loads list holds one layout load per
level plus the terminal page load. -/
theorem c4_counterexample :
    (navigate routerC4a 5 initialState "/").1.fromRoute.errorIndex = some 1 ∧
    ¬ (navigate routerC4a 5 initialState "/").1.fromRoute.errorIndex = some 0 := by
  decide

/-- C4 (amended): an exception in any before hook is attributed to stage
level 0; an exception in the load at list index `i` is attributed to
`errorIndex = i`, which equals the nesting level `k` for the layout load of
level `k` but equals `levels` (one past the last level) for the terminal page
load: concretely, the level-2 layout load of `/child/nested` yields
`errorIndex = 2` while its page load yields `errorIndex = 3`. -/
theorem c4_error_attribution :
    (∀ (st : RouterState) (hooks : List HookFn) (stage : String) (i : Nat) (e : String),
      ¬ hooks = [] →
      firstBad (hooks.map (fun h => h st.toRoute st.fromRoute)) = some (i, .err e) →
      (runHooks st hooks stage).1.toRoute.errorIndex = some 0)
    ∧ (∀ (st : RouterState) (loads : List (Option LoadFn)) (i : Nat) (e : String),
      ¬ loads = [] → st.toRoute.error = none →
      firstBad (loads.map (fun l => match l with | none => Outcome.ok | some f => f st.toRoute)) =
        some (i, .err e) →
      (runLoads st loads).1.toRoute.errorIndex = some i)
    ∧ (navigate routerC4d 5 initialState "/").1.fromRoute.errorIndex = some 0
    ∧ (navigate routerC4b 5 initialState "/child/nested").1.fromRoute.errorIndex = some 2
    ∧ (navigate routerC4c 5 initialState "/child/nested").1.fromRoute.errorIndex = some 3 := by
  refine ⟨?_, runLoads_err_index, ?_, ?_, ?_⟩
  · intro st hooks stage i e hne h
    exact (runHooks_err_index_zero st hooks stage i e hne h).1
  · decide
  · decide
  · decide

/-- C4 witness: the stage-level attribution applied to a concrete failing
before hook. -/
theorem c4_error_attribution_witness :
    (runHooks initialState [fun _ _ => Outcome.err "boom"] "before").1.toRoute.errorIndex =
      some 0 :=
  c4_error_attribution.1 initialState [fun _ _ => Outcome.err "boom"] "before" 0 "boom"
    (by simp) rfl

/-- C5: a throwing `parseParams` is caught inside `#lookupDynamic` — the raw
filtered groups are assigned, the error is captured at the level index passed
in, and the dynamic node is still returned so the lookup continues; in the
four-level scenario the error lands at level index 2, the deeper `/posts`
level still populates (10 component slots), `navigate` fulfills, and without
`parseParams` matching `/users/42` yields `params = [(id, 42)]`. -/
theorem c5_parse_params_contained :
    (∀ (node dynNode : Ruta.Node) (dd : RouteConfig) (pat seg : String)
      (params : List (String × String)) (idx : Nat) (groups : List (String × String))
      (f : ParamsFn) (e : String),
      node.dyn = some dynNode → dynNode.data = some dd → dd.pattern = some pat →
      patExec pat seg = some groups → dd.parseParams = some f →
      f (groups.filter (fun kv => ¬ kv.2 = "")) = .error e →
      lookupDynamic node seg params idx =
        .ok (some ⟨dynNode, assignEntries params (groups.filter (fun kv => ¬ kv.2 = "")),
          some (e, idx), [e]⟩))
    ∧ (navigate routerC5 5 initialState "/users/42/posts").1.fromRoute.errorIndex = some 2
    ∧ (navigate routerC5 5 initialState "/users/42/posts").1.fromRoute.error = some "bad id"
    ∧ (navigate routerC5 5 initialState "/users/42/posts").1.fromRoute.params = [("id", "42")]
    ∧ (navigate routerC5 5 initialState "/users/42/posts").1.fromRoute.comps.length = 10
    ∧ (navigate routerC5 5 initialState "/users/42/posts").2 = Except.ok ()
    ∧ (navigate routerC5b 5 initialState "/users/42").1.fromRoute.params = [("id", "42")] := by
  refine ⟨?_, ?_, ?_, ?_, ?_, ?_, ?_⟩
  · intro node dynNode dd pat seg params idx groups f e h1 h2 h3 h4 h5 h6
    simp only [decide_not] at h6
    simp [lookupDynamic, h1, h2, h3, h4, h5, h6]
  all_goals decide

/-- C5 witness: the containment equation applied at the concrete throwing
`parseParams` of `/users/:id` and segment `42`. -/
theorem c5_parse_params_contained_witness :
    lookupDynamic (Ruta.Node.mk "users" [] (some (Ruta.Node.mk ":id" [] none (some idThrowCfg))) none)
      "42" [] 2 =
      .ok (some ⟨Ruta.Node.mk ":id" [] none (some idThrowCfg),
        assignEntries [] ([(("id" : String), ("42" : String))].filter (fun kv => ¬ kv.2 = "")),
        some ("bad id", 2), ["bad id"]⟩) :=
  c5_parse_params_contained.1
    (Ruta.Node.mk "users" [] (some (Ruta.Node.mk ":id" [] none (some idThrowCfg))) none)
    (Ruta.Node.mk ":id" [] none (some idThrowCfg)) idThrowCfg ":id" "42" [] 2
    [("id", "42")] (fun _ => Except.error "bad id") "bad id" rfl rfl rfl rfl rfl rfl

/-- C6: a non-preload attempt whose computed href equals the settled
`from.href` returns before any state change: `#matchRoute` returns the state
untouched (hence no hook stage, load, or component resolution runs — the
trace is part of the state) and `#handleNavigate` fulfills immediately. -/
theorem c6_skip_rule (r : Router) (st : RouterState) (target : String) (fuel : Nat)
    (hh : st.fromRoute.href = Ruta.href r.base target) :
    matchRoute r st (Ruta.href r.base target) false = (st, none) ∧
    handleNavigate r (fuel + 1) st target false = (st, .ok (Ruta.href r.base target)) := by
  constructor
  · simp [matchRoute, hh]
  · simp [handleNavigate, matchRoute, hh]

/-- C6 witness: navigating again to the settled `/settings` href performs no
work. -/
theorem c6_skip_rule_witness :
    matchRoute routerC1 settledSettings (Ruta.href routerC1.base "/settings") false =
      (settledSettings, none) :=
  (c6_skip_rule routerC1 settledSettings "/settings" 0 (by decide)).1

/-- C8 counterexample: with only the root and `/users/:id` registered, the
lookup of `/users/42` does not traverse the data-less intermediate `/users`
node silently — the `node.data` assertion throws, and the rethrown fault
rejects `navigate`. -/
theorem c8_counterexample :
    (lookup routerC8.rootNode "/users/42").1.isFault = true ∧
    (navigate routerC8 5 initialState "/users/42").2 =
      Except.error "assert: node.data should be defined" := by
  decide

/-- C8 (amended): insertion does create a data-less intermediate node with
children (the structural invariant of the spec holds), but a lookup passing
through such a node raises the `node.data` assertion fault instead of
returning a matched chain, and the fault is logged to `onError` and rethrown
out of `navigate`. -/
theorem c8_dataless_intermediate :
    ((getStatic routerC8.rootNode.statics "users").bind Ruta.Node.data).isSome = false
    ∧ ((getStatic routerC8.rootNode.statics "users").bind Ruta.Node.dyn).isSome = true
    ∧ (((getStatic routerC8.rootNode.statics "users").bind Ruta.Node.dyn).bind
        Ruta.Node.data).isSome = true
    ∧ (lookup routerC8.rootNode "/users/42").1.isFault = true
    ∧ (navigate routerC8 5 initialState "/users/42").1.errLog =
        ["assert: node.data should be defined"] := by
  decide

/-- C9: a trie node owns a single dynamic-child slot; inserting a dynamic
segment at an occupied slot reuses the existing node and overwrites its
terminal data with the later route, so the last insertion wins for subsequent
lookups — with `/users/:id` then `/users/:uid` registered, `/users/42`
matches `path = /users/:uid` with `params = [(uid, 42)]`. -/
theorem c9_single_dynamic_slot :
    (∀ (s : String) (node d : Ruta.Node) (route : RouteConfig),
      node.dyn = some d → ¬ s = "" → ':' ∈ s.data →
      insertSegs route node [s] =
        Ruta.Node.mk node.seg node.statics
          (some (Ruta.Node.mk d.seg d.statics d.dyn (some route))) node.data)
    ∧ (navigate routerC9 5 initialState "/users/42").1.fromRoute.path = "/users/:uid"
    ∧ (navigate routerC9 5 initialState "/users/42").1.fromRoute.params = [("uid", "42")] := by
  refine ⟨?_, ?_, ?_⟩
  · intro s node d route hd hs hc
    simp [insertSegs, hs, hc, hd]
  · decide
  · decide

/-- C9 witness: the overwrite equation applied at a concrete occupied dynamic
slot. -/
theorem c9_single_dynamic_slot_witness :
    insertSegs (rc "/users/:uid" (some ":uid") "uid layout" "uid page")
      (Ruta.Node.mk "users" [] (some (Ruta.Node.mk ":id" [] none none)) none) [":uid"] =
      Ruta.Node.mk "users" []
        (some (Ruta.Node.mk ":id" [] none
          (some (rc "/users/:uid" (some ":uid") "uid layout" "uid page")))) none :=
  c9_single_dynamic_slot.1 ":uid"
    (Ruta.Node.mk "users" [] (some (Ruta.Node.mk ":id" [] none none)) none)
    (Ruta.Node.mk ":id" [] none none)
    (rc "/users/:uid" (some ":uid") "uid layout" "uid page")
    rfl (by decide) (by decide)

namespace Ruta

lemma noDouble_nil : noDouble [] = true := rfl

lemma noDouble_singleton (a : Char) : noDouble [a] = true := rfl

lemma noDouble_cons_cons (a b : Char) (cs : List Char) :
    noDouble (a :: b :: cs) = if a = '/' ∧ b = '/' then false else noDouble (b :: cs) := rfl

lemma noDouble_cons (a : Char) (l : List Char) :
    noDouble (a :: l) = true ↔ noDouble l = true ∧ ¬ (a = '/' ∧ l.head? = some '/') := by
  cases l with
  | nil => simp [noDouble]
  | cons b cs =>
    rw [noDouble_cons_cons]
    by_cases h : a = '/' ∧ b = '/'
    · simp [h]
    · simp only [if_neg h, List.head?_cons]
      constructor
      · intro hh
        refine ⟨hh, ?_⟩
        intro ⟨h1, h2⟩
        exact h ⟨h1, Option.some.inj h2⟩
      · intro ⟨hh, _⟩
        exact hh

lemma collapseAux_nil (b : Bool) : collapseAux b [] = [] := rfl

lemma collapseAux_cons (b : Bool) (c : Char) (cs : List Char) :
    collapseAux b (c :: cs) =
      if c = '/' then (if b then collapseAux true cs else '/' :: collapseAux true cs)
      else c :: collapseAux false cs := rfl

lemma collapseAux_true_head (l : List Char) : (collapseAux true l).head? ≠ some '/' := by
  induction l with
  | nil => simp [collapseAux]
  | cons c cs ih =>
    rw [collapseAux_cons]
    by_cases hc : c = '/'
    · simpa [hc] using ih
    · simp [hc]

lemma noDouble_collapseAux (l : List Char) : ∀ b, noDouble (collapseAux b l) = true := by
  induction l with
  | nil => intro b; simp [collapseAux, noDouble]
  | cons c cs ih =>
    intro b
    rw [collapseAux_cons]
    by_cases hc : c = '/'
    · rw [if_pos hc]
      cases b with
      | true => exact ih true
      | false =>
        rw [if_neg (by simp)]
        rw [noDouble_cons]
        refine ⟨ih true, ?_⟩
        rintro ⟨-, h2⟩
        exact collapseAux_true_head cs h2
    · rw [if_neg hc]
      rw [noDouble_cons]
      refine ⟨ih false, ?_⟩
      rintro ⟨h1, -⟩
      exact hc h1

lemma collapseAux_of_noDouble (l : List Char) (h : noDouble l = true) :
    collapseAux false l = l ∧ (l.head? ≠ some '/' → collapseAux true l = l) := by
  induction l with
  | nil => simp [collapseAux]
  | cons c cs ih =>
    rw [noDouble_cons] at h
    obtain ⟨h1, h2⟩ := h
    have ihh := ih h1
    constructor
    · rw [collapseAux_cons]
      by_cases hc : c = '/'
      · rw [if_pos hc, if_neg (by simp), hc, List.cons.injEq]
        refine ⟨rfl, ihh.2 ?_⟩
        intro hx
        exact h2 ⟨hc, hx⟩
      · rw [if_neg hc, List.cons.injEq]
        exact ⟨rfl, ihh.1⟩
    · intro hh
      have hc : ¬ c = '/' := by
        intro hx
        apply hh
        simp [hx]
      rw [collapseAux_cons, if_neg hc, List.cons.injEq]
      exact ⟨rfl, ihh.1⟩

lemma lastChar_cons_ne (c : Char) (cs : List Char) (h : ¬ cs = []) :
    lastChar (c :: cs) = lastChar cs := by
  cases cs with
  | nil => exact absurd rfl h
  | cons d ds => rfl

lemma lastChar_cons_isSome (cs : List Char) : ∀ (c : Char), ∃ e, lastChar (c :: cs) = some e := by
  induction cs with
  | nil => intro c; exact ⟨c, rfl⟩
  | cons d ds ih =>
    intro c
    rw [lastChar_cons_ne c (d :: ds) (by simp)]
    exact ih d

lemma stateAfter_cons (b : Bool) (c : Char) (cs : List Char) :
    stateAfter b (c :: cs) = stateAfter (decide (c = '/')) cs := by
  cases cs with
  | nil => simp [stateAfter, lastChar]
  | cons d ds =>
    obtain ⟨e, he⟩ := lastChar_cons_isSome ds d
    unfold stateAfter
    rw [lastChar_cons_ne c (d :: ds) (by simp), he]

lemma collapseAux_append (l : List Char) : ∀ (b : Bool) (m : List Char),
    collapseAux b (l ++ m) = collapseAux b l ++ collapseAux (stateAfter b l) m := by
  induction l with
  | nil => intro b m; simp [collapseAux, stateAfter, lastChar]
  | cons c cs ih =>
    intro b m
    rw [List.cons_append, stateAfter_cons, collapseAux_cons, collapseAux_cons]
    by_cases hc : c = '/'
    · have hd : decide (c = '/') = true := by simp [hc]
      rw [if_pos hc, if_pos hc, hd]
      cases b with
      | true => rw [if_pos rfl, if_pos rfl]; exact ih true m
      | false => rw [if_neg (by simp), if_neg (by simp), List.cons_append, ih true m]
    · have hd : decide (c = '/') = false := by simp [hc]
      rw [if_neg hc, if_neg hc, hd, List.cons_append, ih false m]


lemma noDouble_dropLast (l : List Char) (h : noDouble l = true) :
    noDouble l.dropLast = true := by
  induction l with
  | nil => simp [noDouble]
  | cons a l2 ih =>
    cases l2 with
    | nil => simp [noDouble]
    | cons b cs =>
      rw [List.dropLast_cons₂, noDouble_cons]
      rw [noDouble_cons] at h
      obtain ⟨h1, h2⟩ := h
      refine ⟨ih h1, ?_⟩
      rintro ⟨ha, hb⟩
      apply h2
      refine ⟨ha, ?_⟩
      cases cs with
      | nil => simp at hb
      | cons d ds =>
        rw [List.dropLast_cons₂] at hb
        simpa using hb

lemma noDouble_concat_slash (l : List Char) (h : noDouble (l ++ ['/']) = true) :
    ¬ lastChar l = some '/' := by
  induction l with
  | nil => simp [lastChar]
  | cons a l2 ih =>
    cases l2 with
    | nil =>
      rw [List.cons_append, List.nil_append, noDouble_cons] at h
      obtain ⟨-, h2⟩ := h
      intro hl
      apply h2
      have : a = '/' := by simpa [lastChar] using hl
      simp [this]
    | cons b cs =>
      rw [lastChar_cons_ne a (b :: cs) (by simp)]
      apply ih
      rw [List.cons_append, noDouble_cons] at h
      exact h.1

lemma lastChar_append (l m : List Char) (h : ¬ m = []) :
    lastChar (l ++ m) = lastChar m := by
  induction l with
  | nil => rfl
  | cons c cs ih =>
    rw [List.cons_append, lastChar_cons_ne, ih]
    intro hx
    rcases List.append_eq_nil.mp hx with ⟨-, h2⟩
    exact h h2

lemma lastChar_self_dropLast (l : List Char) (c : Char) (h : lastChar l = some c) :
    l = l.dropLast ++ [c] := by
  induction l with
  | nil => simp [lastChar] at h
  | cons a l2 ih =>
    cases l2 with
    | nil =>
      have : a = c := by simpa [lastChar] using h
      simp [this]
    | cons b cs =>
      rw [lastChar_cons_ne a (b :: cs) (by simp)] at h
      rw [List.dropLast_cons₂, List.cons_append]
      rw [← ih h]

lemma allSlash_collapseAux_true (l : List Char) (h : allSlash l = true) :
    collapseAux true l = [] := by
  induction l with
  | nil => rfl
  | cons c cs ih =>
    rw [allSlash, List.all_cons] at h
    simp only [Bool.and_eq_true, decide_eq_true_eq] at h
    rw [collapseAux_cons, if_pos h.1, if_pos rfl]
    exact ih (by rw [allSlash]; exact h.2)

lemma joinSlash_nil : joinSlash [] = [] := rfl

lemma joinSlash_cons_ne (p : List Char) (ps : List (List Char)) (h : ¬ ps = []) :
    joinSlash (p :: ps) = p ++ '/' :: joinSlash ps := by
  cases ps with
  | nil => exact absurd rfl h
  | cons q qs => rfl

lemma allSlash_joinSlash_empties (ps : List (List Char)) (h : ∀ p ∈ ps, p = []) :
    allSlash (joinSlash ps) = true := by
  induction ps with
  | nil => rfl
  | cons p qs ih =>
    have hp : p = [] := h p (by simp)
    cases qs with
    | nil => simp [joinSlash, hp, allSlash]
    | cons q rs =>
      rw [joinSlash_cons_ne p (q :: rs) (by simp), hp, List.nil_append]
      rw [allSlash, List.all_cons]
      simp only [Bool.and_eq_true, decide_eq_true_eq]
      refine ⟨trivial, ?_⟩
      rw [← allSlash]
      exact ih (fun x hx => h x (by simp [hx]))


lemma collapseAux_true_slash (l : List Char) : collapseAux true ('/' :: l) = collapseAux true l := by
  rw [collapseAux_cons, if_pos rfl, if_pos rfl]

lemma resolvePathChars_eq (ps : List (List Char)) :
    resolvePathChars ps = stripTrailingSlash ('/' :: collapseAux true (joinSlash ps)) := by
  unfold resolvePathChars collapseSlashes
  rw [collapseAux_cons, if_pos rfl, if_neg (by simp)]

lemma noDouble_slash_collapse (l : List Char) :
    noDouble ('/' :: collapseAux true l) = true := by
  rw [noDouble_cons]
  refine ⟨noDouble_collapseAux l true, ?_⟩
  rintro ⟨-, h⟩
  exact collapseAux_true_head l h

lemma resolvePathChars_norm (ps : List (List Char)) : normSlash (resolvePathChars ps) := by
  rw [resolvePathChars_eq]
  have hnd : noDouble ('/' :: collapseAux true (joinSlash ps)) = true :=
    noDouble_slash_collapse (joinSlash ps)
  generalize collapseAux true (joinSlash ps) = x at hnd ⊢
  by_cases hcond : 1 < ('/' :: x).length ∧ lastChar ('/' :: x) = some '/'
  · rw [stripTrailingSlash, if_pos hcond]
    cases x with
    | nil =>
      exfalso
      have := hcond.1
      simp at this
    | cons y ys =>
      rw [List.dropLast_cons₂]
      refine ⟨by simp, noDouble_dropLast _ hnd, ?_⟩
      intro hlast
      by_cases hys : (y :: ys).dropLast = []
      · rw [hys]
      · exfalso
        have h2 : lastChar (y :: ys) = some '/' := by
          have h3 := hcond.2
          rwa [lastChar_cons_ne _ _ (by simp)] at h3
        have hsplit := lastChar_self_dropLast (y :: ys) '/' h2
        have h4 : noDouble (('/' :: (y :: ys).dropLast) ++ ['/']) = true := by
          rw [List.cons_append, ← hsplit]
          exact hnd
        apply noDouble_concat_slash _ h4
        rw [lastChar_cons_ne _ _ hys]
        rwa [lastChar_cons_ne _ _ hys] at hlast
  · rw [stripTrailingSlash, if_neg hcond]
    refine ⟨by simp, hnd, ?_⟩
    intro hlast
    cases x with
    | nil => rfl
    | cons y ys =>
      exfalso
      apply hcond
      refine ⟨?_, hlast⟩
      simp

lemma resolvePathChars_fixed (s : List Char) (h : normSlash s) : resolvePathChars [s] = s := by
  obtain ⟨hh, hnd, hl⟩ := h
  cases s with
  | nil => simp at hh
  | cons c s2 =>
    have hc : c = '/' := by simpa using hh
    subst hc
    rw [resolvePathChars_eq]
    rw [show joinSlash ['/' :: s2] = '/' :: s2 from rfl]
    rw [collapseAux_true_slash]
    have h2 := (noDouble_cons '/' s2).mp hnd
    have hs2 : collapseAux true s2 = s2 := by
      refine (collapseAux_of_noDouble s2 h2.1).2 ?_
      intro hx
      exact h2.2 ⟨rfl, hx⟩
    rw [hs2]
    by_cases hone : s2 = []
    · subst hone; rfl
    · rw [stripTrailingSlash, if_neg ?_]
      rintro ⟨-, hlast⟩
      have := hl hlast
      simp only [List.cons.injEq] at this
      exact hone this.2


lemma collapse_join_filter (ps : List (List Char)) :
    collapseAux true (joinSlash ps) =
      collapseAux true (joinSlash (ps.filter (fun p => decide (¬ p = [])))) ∨
    collapseAux true (joinSlash ps) =
      collapseAux true (joinSlash (ps.filter (fun p => decide (¬ p = [])))) ++ ['/'] := by
  induction ps with
  | nil => left; rfl
  | cons p rest ih =>
    by_cases hp : p = []
    · subst hp
      rw [show List.filter (fun p => decide (¬ p = [])) ([] :: rest) =
        List.filter (fun p => decide (¬ p = [])) rest by simp]
      cases rest with
      | nil => left; rfl
      | cons q qs =>
        rw [joinSlash_cons_ne [] (q :: qs) (by simp), List.nil_append, collapseAux_true_slash]
        exact ih
    · rw [show List.filter (fun p => decide (¬ p = [])) (p :: rest) =
        p :: List.filter (fun p => decide (¬ p = [])) rest by simp [hp]]
      cases rest with
      | nil => left; rfl
      | cons q qs =>
        rw [joinSlash_cons_ne p (q :: qs) (by simp)]
        by_cases hf : List.filter (fun p => decide (¬ p = [])) (q :: qs) = []
        · rw [hf]
          rw [show joinSlash [p] = p from rfl]
          have hall : ∀ x ∈ (q :: qs), x = [] := by
            intro x hx
            by_contra hne
            have : x ∈ List.filter (fun p => decide (¬ p = [])) (q :: qs) := by
              rw [List.mem_filter]
              exact ⟨hx, by simp [hne]⟩
            rw [hf] at this
            simp at this
          have hslash : allSlash (joinSlash (q :: qs)) = true :=
            allSlash_joinSlash_empties _ hall
          rw [collapseAux_append p true ('/' :: joinSlash (q :: qs))]
          cases hsa : stateAfter true p with
          | true =>
            rw [collapseAux_true_slash, allSlash_collapseAux_true _ hslash, List.append_nil]
            left; rfl
          | false =>
            rw [collapseAux_cons, if_pos rfl, if_neg (by simp),
              allSlash_collapseAux_true _ hslash]
            right; rfl
        · rw [joinSlash_cons_ne p _ hf]
          rw [collapseAux_append p true ('/' :: joinSlash (q :: qs)),
            collapseAux_append p true ('/' :: joinSlash (List.filter (fun p => decide (¬ p = [])) (q :: qs)))]
          cases hsa : stateAfter true p with
          | true =>
            rw [collapseAux_true_slash, collapseAux_true_slash]
            rcases ih with h | h
            · left; rw [h]
            · right; rw [h, List.append_assoc]
          | false =>
            rw [collapseAux_cons, if_pos rfl, if_neg (by simp),
              collapseAux_cons, if_pos rfl, if_neg (by simp)]
            rcases ih with h | h
            · left; rw [h]
            · right; rw [h]
              simp

lemma stripTrailingSlash_slash_cases (y : List Char)
    (hnd : noDouble ('/' :: (y ++ ['/'])) = true) :
    stripTrailingSlash ('/' :: (y ++ ['/'])) = stripTrailingSlash ('/' :: y) := by
  have h1 : 1 < ('/' :: (y ++ ['/'])).length := by simp
  have h2 : lastChar ('/' :: (y ++ ['/'])) = some '/' := by
    rw [lastChar_cons_ne _ _ (by simp), lastChar_append y ['/'] (by simp)]
    rfl
  rw [stripTrailingSlash, if_pos ⟨h1, h2⟩]
  have hdl : ('/' :: (y ++ ['/'])).dropLast = '/' :: y := by
    rw [show ('/' :: (y ++ ['/'])) = ('/' :: y) ++ ['/'] by simp]
    exact List.dropLast_concat
  rw [hdl]
  cases y with
  | nil => rfl
  | cons z zs =>
    rw [stripTrailingSlash, if_neg ?_]
    rintro ⟨-, hlast⟩
    have h4 : noDouble (('/' :: z :: zs) ++ ['/']) = true := by
      rw [List.cons_append]
      exact hnd
    apply noDouble_concat_slash _ h4
    exact hlast

lemma resolvePathChars_filter (ps : List (List Char)) :
    resolvePathChars (ps.filter (fun p => decide (¬ p = []))) = resolvePathChars ps := by
  rw [resolvePathChars_eq, resolvePathChars_eq]
  rcases collapse_join_filter ps with h | h
  · rw [h]
  · rw [h]
    have hnd : noDouble ('/' :: (collapseAux true
        (joinSlash (ps.filter (fun p => decide (¬ p = [])))) ++ ['/'])) = true := by
      rw [← h]
      exact noDouble_slash_collapse (joinSlash ps)
    rw [stripTrailingSlash_slash_cases _ hnd]


lemma map_data_filter (xs : List String) :
    (xs.filter (fun s => decide (¬ s = ""))).map String.data =
      (xs.map String.data).filter (fun p => decide (¬ p = [])) := by
  induction xs with
  | nil => rfl
  | cons x rest ih =>
    simp only [decide_not] at ih ⊢
    by_cases hx : x = ""
    · subst hx
      simp [List.filter_cons, ih]
    · have hx2 : ¬ x.data = [] := fun hh => hx (String.ext hh)
      simp [List.filter_cons, hx, hx2, ih]

end Ruta

namespace Ruta

lemma collapseAux_true_norm_tail (t : List Char) (h : noDouble ('/' :: t) = true) :
    collapseAux true t = t := by
  have h2 := (noDouble_cons '/' t).mp h
  exact (collapseAux_of_noDouble t h2.1).2 (fun hx => h2.2 ⟨rfl, hx⟩)

lemma stripTrailingSlash_of_norm (l : List Char) (h : normSlash l) (hne : ¬ l = ['/']) :
    stripTrailingSlash l = l := by
  rw [stripTrailingSlash, if_neg ?_]
  rintro ⟨-, hlast⟩
  exact hne (h.2.2 hlast)

lemma resolvePathChars_pair (b y : List Char) (hb : normSlash b) (hy : normSlash y) :
    resolvePathChars [b, y] =
      if y = ['/'] then b else if b = ['/'] then y else b ++ y := by
  obtain ⟨hbh, hbn, hbl⟩ := hb
  obtain ⟨hyh, hyn, hyl⟩ := hy
  cases b with
  | nil => simp at hbh
  | cons c b2 =>
    have hc : c = '/' := by simpa using hbh
    subst hc
    cases y with
    | nil => simp at hyh
    | cons d y2 =>
      have hd : d = '/' := by simpa using hyh
      subst hd
      have hy2 : collapseAux true y2 = y2 := collapseAux_true_norm_tail y2 hyn
      rw [resolvePathChars_eq]
      rw [show joinSlash [('/' :: b2), ('/' :: y2)] =
        '/' :: (b2 ++ '/' :: ('/' :: y2)) from rfl]
      rw [collapseAux_true_slash]
      cases b2 with
      | nil =>
        rw [List.nil_append, collapseAux_true_slash, collapseAux_true_slash, hy2]
        by_cases hyr : ('/' :: y2) = ['/']
        · rw [if_pos hyr, hyr]
          rfl
        · rw [if_neg hyr, if_pos rfl]
          exact stripTrailingSlash_of_norm _ ⟨rfl, hyn, hyl⟩ hyr
      | cons u us =>
        have hbne : ¬ ('/' :: u :: us) = ['/'] := by simp
        rw [collapseAux_append (u :: us) true ('/' :: ('/' :: y2))]
        have hb2 : collapseAux true (u :: us) = u :: us := collapseAux_true_norm_tail _ hbn
        have hstate : stateAfter true (u :: us) = false := by
          obtain ⟨e, he⟩ := lastChar_cons_isSome us u
          have hlb : lastChar ('/' :: u :: us) = some e := by
            rw [lastChar_cons_ne _ _ (by simp)]
            exact he
          have hens : ¬ e = '/' := by
            intro hx
            subst hx
            exact hbne (hbl hlb)
          unfold stateAfter
          rw [he]
          simp [hens]
        rw [hb2, hstate]
        rw [collapseAux_cons, if_pos rfl, if_neg (by simp), collapseAux_true_slash, hy2]
        by_cases hyr : ('/' :: y2) = ['/']
        · have hy2nil : y2 = [] := by simpa using hyr
          subst hy2nil
          rw [if_pos rfl]
          have hcond : 1 < ('/' :: ((u :: us) ++ ['/'])).length ∧
              lastChar ('/' :: ((u :: us) ++ ['/'])) = some '/' := by
            constructor
            · simp
            · rw [lastChar_cons_ne _ _ (by simp), lastChar_append _ ['/'] (by simp)]
              rfl
          rw [stripTrailingSlash, if_pos hcond]
          rw [show ('/' :: ((u :: us) ++ ['/'])) = ('/' :: u :: us) ++ ['/'] from rfl]
          exact List.dropLast_concat
        · rw [if_neg hyr, if_neg hbne]
          rw [stripTrailingSlash, if_neg ?_]
          · rfl
          · rintro ⟨-, hlast⟩
            rw [lastChar_cons_ne _ _ (by simp),
              lastChar_append _ ('/' :: y2) (by simp)] at hlast
            exact hyr (hyl hlast)

end Ruta

/-- C7: `resolvePath` is idempotent, its result collapses every run of
repeated slashes to one, always starts with `/`, never ends with `/` unless
the whole result is `/`, and empty-string fragments are ignored. -/
theorem c7_resolve_path_properties (xs : List String) :
    Ruta.resolvePath [Ruta.resolvePath xs] = Ruta.resolvePath xs
  ∧ Ruta.noDouble (Ruta.resolvePath xs).data = true
  ∧ (Ruta.resolvePath xs).data.head? = some '/'
  ∧ (Ruta.lastChar (Ruta.resolvePath xs).data = some '/' → Ruta.resolvePath xs = "/")
  ∧ Ruta.resolvePath (xs.filter (fun s => decide (¬ s = ""))) = Ruta.resolvePath xs := by
  have hn := Ruta.resolvePathChars_norm (xs.map String.data)
  obtain ⟨h1, h2, h3⟩ := hn
  refine ⟨?_, h2, h1, ?_, ?_⟩
  · exact congrArg String.mk
      (Ruta.resolvePathChars_fixed (Ruta.resolvePathChars (xs.map String.data)) ⟨h1, h2, h3⟩)
  · intro hlast
    have h4 := h3 hlast
    show String.mk (Ruta.resolvePathChars (xs.map String.data)) = "/"
    rw [h4]
  · show String.mk
        (Ruta.resolvePathChars ((xs.filter (fun s => decide (¬ s = ""))).map String.data)) =
      String.mk (Ruta.resolvePathChars (xs.map String.data))
    rw [Ruta.map_data_filter, Ruta.resolvePathChars_filter]

namespace Ruta

lemma isPrefixOf_append_self (l : List Char) : ∀ m, List.isPrefixOf l (l ++ m) = true := by
  induction l with
  | nil => intro m; simp [List.isPrefixOf]
  | cons c cs ih => intro m; simp [List.isPrefixOf, ih]

lemma isPrefixOf_self (l : List Char) : List.isPrefixOf l l = true := by
  have := isPrefixOf_append_self l []
  rwa [List.append_nil] at this

lemma stripHttp_slash (cs : List Char) : stripHttp ('/' :: cs) = '/' :: cs := by
  have hp1 : List.isPrefixOf "http://".data ('/' :: cs) = false := by
    rw [show "http://".data = 'h' :: "ttp://".data from rfl]
    simp [List.isPrefixOf]
  have hp2 : List.isPrefixOf "https://".data ('/' :: cs) = false := by
    rw [show "https://".data = 'h' :: "ttps://".data from rfl]
    simp [List.isPrefixOf]
  rw [stripHttp, if_neg (by simp [hp1]), if_neg (by simp [hp2])]

lemma trimBase_resolve (b y : List Char) (hb : normSlash b) (hy : normSlash y) :
    trimBase (String.mk (resolvePathChars [b, y])) (String.mk b) = String.mk y := by
  obtain ⟨hbh, hbn, hbl⟩ := hb
  obtain ⟨hyh, hyn, hyl⟩ := hy
  cases b with
  | nil => simp at hbh
  | cons c b2 =>
    have hc : c = '/' := by simpa using hbh
    subst hc
    cases y with
    | nil => simp at hyh
    | cons d y2 =>
      have hd : d = '/' := by simpa using hyh
      subst hd
      rw [resolvePathChars_pair ('/' :: b2) ('/' :: y2) ⟨rfl, hbn, hbl⟩ ⟨rfl, hyn, hyl⟩]
      by_cases hyr : ('/' :: y2) = ['/']
      · rw [if_pos hyr]
        show resolvePath [String.mk
          (if List.isPrefixOf ('/' :: b2) (stripHttp ('/' :: b2)) = true
            then (stripHttp ('/' :: b2)).drop ('/' :: b2).length
            else stripHttp ('/' :: b2))] = String.mk ('/' :: y2)
        rw [stripHttp_slash, if_pos (isPrefixOf_self _), List.drop_length, hyr]
        rfl
      · rw [if_neg hyr]
        by_cases hbr : ('/' :: b2) = ['/']
        · rw [if_pos hbr, hbr]
          show resolvePath [String.mk
            (if List.isPrefixOf ['/'] (stripHttp ('/' :: y2)) = true
              then (stripHttp ('/' :: y2)).drop (['/'] : List Char).length
              else stripHttp ('/' :: y2))] = String.mk ('/' :: y2)
          rw [stripHttp_slash, if_pos (by simp [List.isPrefixOf])]
          show String.mk (resolvePathChars [y2]) = String.mk ('/' :: y2)
          refine congrArg String.mk ?_
          rw [resolvePathChars_eq, show joinSlash [y2] = y2 from rfl,
            collapseAux_true_norm_tail y2 hyn]
          exact stripTrailingSlash_of_norm _ ⟨rfl, hyn, hyl⟩ hyr
        · rw [if_neg hbr]
          show resolvePath [String.mk
            (if List.isPrefixOf ('/' :: b2) (stripHttp (('/' :: b2) ++ ('/' :: y2))) = true
              then (stripHttp (('/' :: b2) ++ ('/' :: y2))).drop ('/' :: b2).length
              else stripHttp (('/' :: b2) ++ ('/' :: y2)))] = String.mk ('/' :: y2)
          rw [show (('/' :: b2) ++ ('/' :: y2)) = '/' :: (b2 ++ '/' :: y2) from rfl,
            stripHttp_slash,
            show ('/' :: (b2 ++ '/' :: y2)) = ('/' :: b2) ++ ('/' :: y2) from rfl,
            if_pos (isPrefixOf_append_self _ _), List.drop_left]
          refine congrArg String.mk ?_
          exact resolvePathChars_fixed ('/' :: y2) ⟨rfl, hyn, hyl⟩

end Ruta

/-- C10 (amended): `href` is idempotent on string targets for every base
path that is slash-normalized, i.e. a fixed point of `resolvePath` (it starts
with `/`, contains no repeated slashes, and has no trailing slash unless it
is `/`); `#handleNavigate` relies on this when it re-applies `href` to the
href navigate already computed. -/
theorem c10_href_idempotent_normalized (base t : String)
    (hb : Ruta.resolvePath [base] = base) :
    Ruta.href base (Ruta.href base t) = Ruta.href base t := by
  have hbn : Ruta.normSlash base.data := by
    have h := Ruta.resolvePathChars_norm [base.data]
    rw [show Ruta.resolvePathChars [base.data] = (Ruta.resolvePath [base]).data from rfl, hb] at h
    exact h
  have hyn : Ruta.normSlash (Ruta.trimBase t base).data := Ruta.resolvePathChars_norm _
  have key := Ruta.trimBase_resolve base.data (Ruta.trimBase t base).data hbn hyn
  have h2 : Ruta.trimBase (Ruta.href base t) base = Ruta.trimBase t base := key
  show Ruta.resolvePath [base, Ruta.trimBase (Ruta.href base t) base] = Ruta.href base t
  rw [h2]
  rfl

/-- C10 counterexample: the base `/app/` starts with `/`, yet `href` is not
idempotent for it — `href("/")` is `/app` and `href("/app")` is `/app/app`,
because the trailing slash of the base stops it from being a prefix of its
own normalized output. -/
theorem c10_counterexample :
    ¬ Ruta.href "/app/" (Ruta.href "/app/" "/") = Ruta.href "/app/" "/" := by decide

/-- C7 witness: the property list instantiated at a concrete fragment
sequence with a doubled slash, an empty fragment and a trailing slash. -/
theorem c7_resolve_path_properties_witness :
    Ruta.resolvePath [Ruta.resolvePath ["a//b", "", "c/"]] =
      Ruta.resolvePath ["a//b", "", "c/"] :=
  (c7_resolve_path_properties ["a//b", "", "c/"]).1

/-- C10 witness: idempotence at the normalized base `/app`. -/
theorem c10_href_idempotent_normalized_witness :
    Ruta.href "/app" (Ruta.href "/app" "x/y") = Ruta.href "/app" "x/y" :=
  c10_href_idempotent_normalized "/app" "x/y" (by decide)
